import Mathlib

/-!
Shallow embedding of the vework-backend shift lifecycle and pricing core.

Money and rates are modelled as exact rationals (`ℚ`); JavaScript
`Math.round(x * 100) / 100` becomes `round2`.  Times of day are the parsed
"HH:MM" pairs; calendar dates are abstract day indices; absolute instants
are integer milliseconds since the epoch, so that the `date-fns`
`differenceInHours` truncation is modelled exactly by `Int.tdiv`.
-/

namespace VeWork

/-- JavaScript `Math.round`: round half toward positive infinity,
`Math.round x = ⌊x + 1/2⌋`. -/
def jsRound (q : ℚ) : ℤ := Int.floor (q + 1/2)

/-- `Math.round (q * 100) / 100`, the 2-decimal rounding used for all money
outputs in `src/utils/calculateShiftCost.ts`. -/
def round2 (q : ℚ) : ℚ := (jsRound (q * 100) : ℚ) / 100

/-- A parsed "HH:MM" time-of-day string (the code splits on `:` and maps
`Number` over the two parts). -/
structure TimeOfDay where
  hour : ℕ
  minute : ℕ
deriving DecidableEq, Repr

/-- Minutes past midnight, `hour * 60 + min` as in every time computation of
the source. -/
def minutesOfDay (t : TimeOfDay) : ℤ := t.hour * 60 + t.minute

/-- Embeds `calculateShiftCost` from `src/utils/calculateShiftCost.ts`:
duration in hours from the two time strings, `baseAmount = hours * rate * n`,
`platformFee = baseAmount * feePct / 100`, `totalCost = base + fee`, each
return field rounded with `round2`. -/
structure ShiftCost where
  baseAmount : ℚ
  platformFee : ℚ
  totalCost : ℚ
deriving DecidableEq, Repr

def calculateShiftCost (startTime endTime : TimeOfDay) (baseHourlyRate : ℚ)
    (platformFeePercentage : ℚ) (requiredEmployees : ℕ) : ShiftCost :=
  let startMinutes := minutesOfDay startTime
  let endMinutes := minutesOfDay endTime
  let totalMinutes : ℤ := endMinutes - startMinutes
  let hours : ℚ := (totalMinutes : ℚ) / 60
  let baseAmount := hours * baseHourlyRate * (requiredEmployees : ℚ)
  let platformFee := baseAmount * platformFeePercentage / 100
  let totalCost := baseAmount + platformFee
  { baseAmount := round2 baseAmount
    platformFee := round2 platformFee
    totalCost := round2 totalCost }

/-- Embeds `calculatePenalty`: `Math.round (total * pct / 100 * 100) / 100`,
i.e. `round2 (total * pct / 100)`. -/
def calculatePenalty (totalCost penaltyPercentage : ℚ) : ℚ :=
  round2 (totalCost * penaltyPercentage / 100)

/-- Embeds `getHoursFromShift`: `(endMinutes - startMinutes) / 60`. -/
def getHoursFromShift (startTime endTime : TimeOfDay) : ℚ :=
  ((minutesOfDay endTime - minutesOfDay startTime : ℤ) : ℚ) / 60

/-- Embeds `shiftsOverlap` from `src/utils/formatDuration.ts` /
`shiftConflict`: different calendar dates never overlap; otherwise
`start1 < end2 && end1 > start2` on minutes-of-day. Dates are abstract day
indices standing for `toDateString` equality. -/
def shiftsOverlap (date1 : ℤ) (startTime1 endTime1 : TimeOfDay)
    (date2 : ℤ) (startTime2 endTime2 : TimeOfDay) : Bool :=
  if date1 ≠ date2 then false
  else
    decide (minutesOfDay startTime1 < minutesOfDay endTime2 ∧
      minutesOfDay endTime1 > minutesOfDay startTime2)

/-- date-fns `differenceInHours a b`: the millisecond difference divided by
3600000, truncated toward zero (`Int.tdiv`). -/
def differenceInHours (laterMs earlierMs : ℤ) : ℤ :=
  Int.tdiv (laterMs - earlierMs) 3600000

/-- The status enum of the `Shift` schema (`models/Shift.ts`); `open` is a
Lean keyword, hence the trailing underscore. -/
inductive ShiftStatus where
  | pending_approval
  | open_
  | accepted
  | completed
  | cancelled
  | paused
deriving DecidableEq, Repr

/-- The `Shift` document (`models/Shift.ts`).  User and shift object ids are
naturals; `date` is an abstract day index; `createdAtMs` is the `createdAt`
timestamp in epoch milliseconds. -/
structure Shift where
  id : ℕ
  cafe : ℕ
  date : ℤ
  startTime : TimeOfDay
  endTime : TimeOfDay
  requiredEmployees : ℕ
  status : ShiftStatus
  acceptedBy : List ℕ
  blockedEmployees : List ℕ
  baseHourlyRate : ℚ
  employeeHourlyRate : Option ℚ
  platformFee : ℚ
  totalCost : ℚ
  penaltyApplied : Bool
  penaltyAmount : ℚ
  employeePenaltyApplied : Bool
  employeePenaltyAmount : ℚ
  createdAtMs : ℤ
deriving DecidableEq, Repr

/-- Epoch milliseconds of the shift start: midnight of `date` plus the
parsed `startTime` (`new Date(shift.date); setHours(hours, minutes, 0, 0)`). -/
def shiftStartMs (s : Shift) : ℤ := s.date * 86400000 + minutesOfDay s.startTime * 60000

/-- Epoch milliseconds of the shift end, analogous to `shiftStartMs`. -/
def shiftEndMs (s : Shift) : ℤ := s.date * 86400000 + minutesOfDay s.endTime * 60000

/-- The status enum of the `Application` schema. -/
inductive ApplicationStatus where
  | pending
  | accepted
  | rejected
  | withdrawn
deriving DecidableEq, Repr

/-- The `Application` document (`models/Application.ts`). -/
structure Application where
  id : ℕ
  shift : ℕ
  employee : ℕ
  status : ApplicationStatus
  rejectionReason : Option String
deriving DecidableEq, Repr

/-- The status enum of the `Invoice` schema (`models/Invoice.ts`). -/
inductive InvoiceStatus where
  | pending
  | paid
deriving DecidableEq, Repr

/-- The `Invoice` document (`models/Invoice.ts`): café and shift references,
the `shiftDetails` snapshot (hours and employee count), the money fields,
status and `paidAt`. -/
structure Invoice where
  cafe : ℕ
  shift : ℕ
  shiftDetailsHours : ℚ
  shiftDetailsEmployees : ℕ
  baseAmount : ℚ
  platformFee : ℚ
  penaltyAmount : ℚ
  totalAmount : ℚ
  status : InvoiceStatus
  paidAtMs : Option ℤ
deriving DecidableEq, Repr

/-- An HTTP-level failure: status code and message, as sent by
`res.status(code).json({ message })`. -/
abbrev RouteError := ℕ × String

/-- Whether a handler outcome is a success (a 2xx JSON response rather than
an error response). -/
def isSuccess {α : Type} (r : Except RouteError α) : Bool :=
  match r with
  | .ok _ => true
  | .error _ => false

/-- The conflict scan of `POST /api/shifts/:id/accept`: the handler queries
all shifts with `acceptedBy: userId`, `status ∈ {open, accepted}` and a
different id, then tests `shiftsOverlap` against each. `db` is the stored
shift collection. -/
def hasConflictingShift (db : List Shift) (shift : Shift) (userId : ℕ) : Bool :=
  (db.filter (fun ex =>
    ex.acceptedBy.contains userId &&
    (ex.status == ShiftStatus.open_ || ex.status == ShiftStatus.accepted) &&
    ex.id != shift.id)).any (fun ex =>
      shiftsOverlap ex.date ex.startTime ex.endTime shift.date shift.startTime shift.endTime)

/-- Embeds the handler body of `POST /api/shifts/:id/accept`
(`routes/shifts.ts`, first-come-first-serve direct accept), after the shift
has been looked up and the caller authenticated as an employee: status must
be exactly `open`, the shift must not be full, the claimant must not already
be in `acceptedBy` and must have no overlapping accepted shift; on success
the claimant is pushed onto `acceptedBy` and status becomes `accepted` once
`requiredEmployees` is reached. -/
def acceptShift (shift : Shift) (userId : ℕ) (db : List Shift) :
    Except RouteError Shift :=
  if shift.status ≠ ShiftStatus.open_ then
    .error (400, "Shift is not available")
  else if shift.requiredEmployees ≤ shift.acceptedBy.length then
    .error (400, "Shift is already full")
  else if shift.acceptedBy.contains userId then
    .error (400, "You have already accepted this shift")
  else if hasConflictingShift db shift userId then
    .error (400, "You have a conflict with an already accepted shift for this time")
  else
    let acceptedBy := shift.acceptedBy ++ [userId]
    let status :=
      if shift.requiredEmployees ≤ acceptedBy.length then ShiftStatus.accepted
      else shift.status
    .ok { shift with acceptedBy := acceptedBy, status := status }

/-- Number of applications for `shiftId` whose status is `accepted`
(`Application.countDocuments({ shift, status: 'accepted' })`). -/
def countAcceptedApplications (apps : List Application) (shiftId : ℕ) : ℕ :=
  (apps.filter (fun a => a.shift == shiftId && a.status == ApplicationStatus.accepted)).length

/-- Embeds the handler body of `PUT /api/applications/:id/accept` after the
application (already resolved to `app_`, with its populated shift) has been
found and the caller authenticated as the owning café. The fullness guard
counts accepted `Application` documents; on acceptance the employee is
pushed onto the shift `acceptedBy` (unless already there), and when the
accepted-application count reaches `requiredEmployees` every other pending
application for the shift is bulk-rejected and the shift status flips to
`accepted`.  `pushAccepted` is the guarded push onto `acceptedBy`,
`acceptApplicationBody` the post-guard mutation, and `acceptApplication` the
handler. -/
def pushAccepted (shift : Shift) (employeeId : ℕ) : Shift :=
  if shift.acceptedBy.contains employeeId then shift
  else { shift with acceptedBy := shift.acceptedBy ++ [employeeId] }

/-- See `pushAccepted`. -/
def acceptApplicationBody (shift : Shift) (apps : List Application) (app_ : Application) :
    Shift × List Application :=
  let apps2 := apps.map (fun a =>
    if a.id == app_.id then { a with status := ApplicationStatus.accepted } else a)
  let shift2 := pushAccepted shift app_.employee
  if shift2.requiredEmployees ≤ countAcceptedApplications apps2 shift2.id then
    ({ shift2 with status := ShiftStatus.accepted },
     apps2.map (fun a =>
       if a.shift == shift2.id && a.status == ApplicationStatus.pending && a.id != app_.id then
         { a with status := ApplicationStatus.rejected,
                  rejectionReason := some "Shift is now full" }
       else a))
  else
    (shift2, apps2)

/-- See `pushAccepted`. -/
def acceptApplication (shift : Shift) (apps : List Application) (app_ : Application) :
    Except RouteError (Shift × List Application) :=
  if app_.status ≠ ApplicationStatus.pending then
    .error (400, "Application is not pending")
  else if shift.requiredEmployees ≤ countAcceptedApplications apps shift.id then
    .error (400, "Shift is already full")
  else
    .ok (acceptApplicationBody shift apps app_)

/-- Embeds the employee branch of `POST /api/shifts/:id/cancel`: requires the
caller to be in `acceptedBy`; applies the employee late-cancellation penalty
when `hoursUntilShift ≤ 24 && hoursUntilShift > 0` (truncated hours) and the
shift was not posted within the last 24 truncated hours; then removes the
caller from `acceptedBy` and reopens the shift when it is empty or when an
`accepted` shift drops below `requiredEmployees`.  `applyEmployeePenalty`
is the penalty step, `reopenIfBelow` the status step, and
`employeeCancelShift` the handler. -/
def applyEmployeePenalty (shift : Shift) (nowMs : ℤ)
    (employeePenaltyPercentage : ℚ) : Shift :=
  let hoursUntilShift := differenceInHours (shiftStartMs shift) nowMs
  let hoursSinceCreation := differenceInHours nowMs shift.createdAtMs
  let isSameDayPost := hoursSinceCreation < 24
  if hoursUntilShift ≤ 24 ∧ hoursUntilShift > 0 ∧ ¬ isSameDayPost then
    let hoursWorked := getHoursFromShift shift.startTime shift.endTime
    let hourlyRate := shift.employeeHourlyRate.getD shift.baseHourlyRate
    let expectedEarnings := hoursWorked * hourlyRate
    { shift with
        employeePenaltyApplied := true
        employeePenaltyAmount := calculatePenalty expectedEarnings employeePenaltyPercentage }
  else shift

/-- See `applyEmployeePenalty`. -/
def reopenIfBelow (shift : Shift) : Shift :=
  if shift.acceptedBy.length = 0 then
    { shift with status := ShiftStatus.open_ }
  else if shift.status = ShiftStatus.accepted ∧
      shift.acceptedBy.length < shift.requiredEmployees then
    { shift with status := ShiftStatus.open_ }
  else shift

/-- See `applyEmployeePenalty`. -/
def employeeCancelShift (shift : Shift) (userId : ℕ) (nowMs : ℤ)
    (employeePenaltyPercentage : ℚ) : Except RouteError Shift :=
  if ¬ shift.acceptedBy.contains userId then
    .error (400, "You have not accepted this shift")
  else
    let shift2 := applyEmployeePenalty shift nowMs employeePenaltyPercentage
    let shift3 : Shift := { shift2 with acceptedBy := shift2.acceptedBy.erase userId }
    .ok (reopenIfBelow shift3)

/-- Embeds the café branch of `POST /api/shifts/:id/cancel`: ownership check,
then the 24-hour window guard `hoursUntilShift <= 24` on truncated hours; on
success only the status is set to `cancelled` (the penalty comment block in
the source has an empty body). -/
def cafeCancelShift (shift : Shift) (cafeId : ℕ) (nowMs : ℤ) :
    Except RouteError Shift :=
  if shift.cafe ≠ cafeId then
    .error (403, "Not authorized")
  else
    let hoursUntilShift := differenceInHours (shiftStartMs shift) nowMs
    if hoursUntilShift ≤ 24 then
      .error (400, "Cannot cancel shift with less than 24 hours remaining. Please contact support if this is an emergency.")
    else
      .ok { shift with status := ShiftStatus.cancelled }

/-- JavaScript `x || d` on a numeric field that is always present: the
default replaces the value exactly when it is `0` (falsy). -/
def jsOrDefault (x d : ℚ) : ℚ := if x = 0 then d else x

/-- Embeds `isShiftEnded` from `jobs/autoCompleteShifts.ts`:
`shiftEndDate <= new Date()`. -/
def isShiftEnded (s : Shift) (nowMs : ℤ) : Bool := shiftEndMs s ≤ nowMs

/-- The per-shift body of the auto-completion sweep
(`jobs/autoCompleteShifts.ts`): the query selects `status: 'accepted'`; a
shift whose end has not passed, or for which an invoice already exists, is
skipped unchanged (`continue`); otherwise when at least one employee is
accepted an invoice is created with `baseAmount = (rate || 14) * hours *
acceptedCount`, `platformFee = shift.platformFee || 0`, `penaltyAmount =
shift.penaltyAmount || 0`, `totalAmount = (shift.totalCost || 0) +
(shift.penaltyAmount || 0)`, status `paid` and `paidAt = now`; finally the
shift status is set to `completed`.  `sweepInvoice` is the invoice document
built by the sweep. -/
def sweepInvoice (nowMs : ℤ) (shift : Shift) : Invoice :=
  { cafe := shift.cafe
    shift := shift.id
    shiftDetailsHours := getHoursFromShift shift.startTime shift.endTime
    shiftDetailsEmployees := shift.acceptedBy.length
    baseAmount := jsOrDefault shift.baseHourlyRate 14 *
      getHoursFromShift shift.startTime shift.endTime * (shift.acceptedBy.length : ℚ)
    platformFee := jsOrDefault shift.platformFee 0
    penaltyAmount := jsOrDefault shift.penaltyAmount 0
    totalAmount := jsOrDefault shift.totalCost 0 + jsOrDefault shift.penaltyAmount 0
    status := InvoiceStatus.paid
    paidAtMs := some nowMs }

/-- The per-shift body of `runAutoCompleteShifts`; see `sweepInvoice`. -/
def autoCompleteStep (nowMs : ℤ) (shift : Shift) (invoices : List Invoice) :
    Shift × List Invoice :=
  if shift.status ≠ ShiftStatus.accepted then (shift, invoices)
  else if ¬ isShiftEnded shift nowMs then (shift, invoices)
  else if invoices.any (fun inv => inv.shift == shift.id) then (shift, invoices)
  else
    let acceptedCount := shift.acceptedBy.length
    let invoices : List Invoice :=
      if 0 < acceptedCount then invoices ++ [sweepInvoice nowMs shift]
      else invoices
    ({ shift with status := ShiftStatus.completed }, invoices)

/-- Embeds `runAutoCompleteShifts`: one pass of the sweep over the stored
shifts, threading the invoice collection through `autoCompleteStep` for each
shift in turn (per-shift failures are logged and skipped in the source; no
failure is modelled). -/
def runAutoCompleteShifts (nowMs : ℤ) (shifts : List Shift) (invoices : List Invoice) :
    List Shift × List Invoice :=
  match shifts with
  | [] => ([], invoices)
  | s :: rest =>
    let (s2, invoices2) := autoCompleteStep nowMs s invoices
    let (rest2, invoices3) := runAutoCompleteShifts nowMs rest invoices2
    (s2 :: rest2, invoices3)

/-- Embeds the handler body of `POST /api/invoices/generate/:shiftId`
(`routes/invoices.ts`), after the shift has been resolved and the caller
authorized: if any invoice for the shift exists the request fails with 400
"Invoice already exists" and nothing is written; otherwise one invoice with
status `pending` is appended, with `baseAmount = rate * hours *
acceptedBy.length` and `totalAmount = shift.totalCost +
(shift.penaltyAmount || 0)`. -/
def generateInvoice (shift : Shift) (invoices : List Invoice) :
    Except RouteError (List Invoice) :=
  if invoices.any (fun inv => inv.shift == shift.id) then
    .error (400, "Invoice already exists")
  else
    let hours := getHoursFromShift shift.startTime shift.endTime
    .ok (invoices ++ [{
      cafe := shift.cafe
      shift := shift.id
      shiftDetailsHours := hours
      shiftDetailsEmployees := shift.acceptedBy.length
      baseAmount := shift.baseHourlyRate * hours * (shift.acceptedBy.length : ℚ)
      platformFee := shift.platformFee
      penaltyAmount := jsOrDefault shift.penaltyAmount 0
      totalAmount := shift.totalCost + jsOrDefault shift.penaltyAmount 0
      status := InvoiceStatus.pending
      paidAtMs := none }])

/-- At most one invoice per shift id in the collection. -/
def atMostOneInvoicePerShift (invoices : List Invoice) : Prop :=
  ∀ sid : ℕ, (invoices.filter (fun inv => inv.shift == sid)).length ≤ 1

/-- The platform configuration keys consumed by shift creation
(`PlatformConfig.findOne` with the hardcoded fallback defaults of
`routes/shifts.ts`). -/
structure PlatformCfg where
  minimumHoursBeforeShift : ℚ := 3
  basePriceTier3to12 : ℚ := 17
  basePriceTier12to24 : ℚ := 16
  basePriceTier24Plus : ℚ := 14
deriving DecidableEq, Repr

/-- The tier floor selection of `POST /api/shifts`: `hoursFromNow >= 24` →
24h-plus tier, else `>= 12` → 12-to-24 tier, else the 3-to-12 tier. -/
def tierBasePrice (cfg : PlatformCfg) (hoursFromNow : ℚ) : ℚ :=
  if 24 ≤ hoursFromNow then cfg.basePriceTier24Plus
  else if 12 ≤ hoursFromNow then cfg.basePriceTier12to24
  else cfg.basePriceTier3to12

/-- Embeds the lead-time and rate logic of `POST /api/shifts`
(`routes/shifts.ts`, fixed-fee variant): `hoursFromNow = (start - now) /
3600000` as an exact rational; rejected when below
`minimumHoursBeforeShift`; a supplied rate below the tier floor is rejected;
without a supplied rate the tier floor is assigned.  Returns the
`baseHourlyRate` stored on the created shift. -/
def hoursFromNowQ (nowMs startMs : ℤ) : ℚ := ((startMs - nowMs : ℤ) : ℚ) / 3600000

def createShiftRate (cfg : PlatformCfg) (nowMs startMs : ℤ)
    (clientHourlyRate : Option ℚ) : Except RouteError ℚ :=
  let hoursFromNow : ℚ := hoursFromNowQ nowMs startMs
  if hoursFromNow < cfg.minimumHoursBeforeShift then
    .error (400, "Shift must start at least the minimum hours from now")
  else
    let tier := tierBasePrice cfg hoursFromNow
    let baseHourlyRate := clientHourlyRate.getD tier
    if baseHourlyRate < tier then
      .error (400, "Price per hour cannot be less than the minimum for this posting time")
    else
      .ok baseHourlyRate

/-- Modelled from the spec: `calculateShiftCostWithFixedFee` is imported by
the shift-creation routes but its definition is not in the repository
source; per the fixed-fee model of the spec, `total = base + fixedFee` with
`base = hours * rate * requiredEmployees`. -/
def calculateShiftCostWithFixedFee (startTime endTime : TimeOfDay)
    (baseHourlyRate : ℚ) (requiredEmployees : ℕ) (platformFee : ℚ) :
    ℚ × ℚ :=
  let baseAmount := getHoursFromShift startTime endTime * baseHourlyRate * (requiredEmployees : ℚ)
  (baseAmount, baseAmount + platformFee)

/-- A concrete one-slot 09:00-17:00 shift used as the base of the test
fixtures below. -/
def baseShift : Shift :=
  { id := 10
    cafe := 7
    date := 0
    startTime := ⟨9, 0⟩
    endTime := ⟨17, 0⟩
    requiredEmployees := 1
    status := ShiftStatus.open_
    acceptedBy := []
    blockedEmployees := []
    baseHourlyRate := 16
    employeeHourlyRate := none
    platformFee := 10
    totalCost := 138
    penaltyApplied := false
    penaltyAmount := 0
    employeePenaltyApplied := false
    employeePenaltyAmount := 0
    createdAtMs := 0 }

/-- Fixture for C1: a one-slot shift already staffed through direct accept
(employee 1 in `acceptedBy`), with no accepted `Application` records. -/
def c1shift : Shift := { baseShift with acceptedBy := [1] }

/-- Fixture for C1: a pending application by employee 2 for `c1shift`. -/
def c1app : Application :=
  { id := 0, shift := 10, employee := 2, status := ApplicationStatus.pending,
    rejectionReason := none }

/-- Fixture for C2: a fully staffed `accepted` shift whose end has passed at
`nowC2`. -/
def c2shift : Shift := { baseShift with status := ShiftStatus.accepted, acceptedBy := [3] }

/-- Fixture for C2: the instant at which `c2shift` has just ended. -/
def nowC2 : ℤ := 61200000

/-- Fixture for C2: an invoice for `c2shift` that exists before the sweep
runs. -/
def c2invoice : Invoice :=
  { cafe := 7, shift := 10, shiftDetailsHours := 8, shiftDetailsEmployees := 1,
    baseAmount := 128, platformFee := 10, penaltyAmount := 0, totalAmount := 138,
    status := InvoiceStatus.paid, paidAtMs := some 0 }

/-- Fixture for C4: an open one-slot shift whose café has blocked
employee 5. -/
def c4shift : Shift := { baseShift with blockedEmployees := [5] }

/-- Fixture for C5: a shift starting exactly 24 hours and 1 minute after
instant 0 (start at epoch milliseconds 86460000). -/
def c5shift : Shift := { baseShift with date := 1, startTime := ⟨0, 1⟩ }

/-- Fixture for C6: a staffed shift starting 30 minutes after `nowC6`,
created 48 hours before `nowC6` (so not a same-day post). -/
def c6shift : Shift :=
  { baseShift with
      date := 2
      startTime := ⟨0, 30⟩
      endTime := ⟨8, 30⟩
      status := ShiftStatus.accepted
      acceptedBy := [3] }

/-- Fixture for C6: the instant of the withdrawal, 48 hours after the shift
was created and 30 minutes before it starts. -/
def nowC6 : ℤ := 172800000

/-- C1 counterexample: on a one-slot shift whose single slot is already
taken through direct accept (employee 1, no application record), the café
acceptance of employee 2's formal application still succeeds — its fullness
guard counts accepted `Application` documents (zero here), not
`acceptedBy` — and leaves `acceptedBy = [1, 2]` of length 2 with
`requiredEmployees = 1`, violating the claimed shared bound. -/
theorem c1_counterexample :
    acceptApplication c1shift [c1app] c1app =
      Except.ok ({ c1shift with acceptedBy := [1, 2], status := ShiftStatus.accepted },
        [{ c1app with status := ApplicationStatus.accepted }]) ∧
    c1shift.requiredEmployees = 1 ∧
    ¬ ([1, 2] : List ℕ).length ≤ c1shift.requiredEmployees := by
  refine ⟨rfl, rfl, ?_⟩
  decide

/-- C2 counterexample: `c2shift` is in status `accepted` and has ended at
`nowC2`, and an invoice for it already exists; one run of the
auto-completion sweep skips it entirely (`continue` on the existing-invoice
guard), so the shift stays `accepted` instead of being transitioned to
`completed` as the claim states. -/
theorem c2_counterexample :
    c2shift.status = ShiftStatus.accepted ∧
    isShiftEnded c2shift nowC2 = true ∧
    c2invoice.shift = c2shift.id ∧
    runAutoCompleteShifts nowC2 [c2shift] [c2invoice] = ([c2shift], [c2invoice]) ∧
    c2shift.status ≠ ShiftStatus.completed := by
  refine ⟨rfl, rfl, rfl, rfl, ?_⟩
  decide

/-- C4 counterexample: employee 5 is on the blocked-list of the open shift
`c4shift`, yet the direct first-come-first-serve accept succeeds — the
handler never consults `blockedEmployees` — refuting the claimed
necessary condition that the claimant not be blocked. -/
theorem c4_counterexample :
    c4shift.blockedEmployees.contains 5 = true ∧
    acceptShift c4shift 5 [] =
      Except.ok { c4shift with acceptedBy := [5], status := ShiftStatus.accepted } := by
  exact ⟨rfl, rfl⟩

/-- C5: the café cancels `c5shift` exactly 24 hours and 1 minute before its
start (start at epoch millisecond 86460000, cancellation at instant 0);
date-fns `differenceInHours` truncates 24h01m to 24, the guard
`hoursUntilShift <= 24` fires, and the request is rejected with the
less-than-24-hours message — although more than 24 hours remain, the code
rejects where the claim (and the message text itself) says it must
succeed. -/
theorem c5_cancel_at_24h01m_rejected :
    shiftStartMs c5shift - 0 = 1441 * 60000 ∧
    differenceInHours (shiftStartMs c5shift) 0 = 24 ∧
    cafeCancelShift c5shift 7 0 =
      Except.error (400,
        "Cannot cancel shift with less than 24 hours remaining. Please contact support if this is an emergency.") := by
  exact ⟨rfl, rfl, rfl⟩

/-- C6 counterexample: employee 3 withdraws from `c6shift` 30 minutes before
its start, and the shift was created 48 hours earlier (not a same-day
post) — squarely inside the claimed within-24-hours penalty window — yet no
employee penalty is recorded, because the code additionally requires
`hoursUntilShift > 0` and the truncated hour count of a 30-minute lead
is 0. -/
theorem c6_counterexample :
    shiftStartMs c6shift - nowC6 = 30 * 60000 ∧
    differenceInHours nowC6 c6shift.createdAtMs = 48 ∧
    c6shift.employeePenaltyApplied = false ∧
    employeeCancelShift c6shift 3 nowC6 50 =
      Except.ok { c6shift with acceptedBy := [], status := ShiftStatus.open_ } := by
  exact ⟨rfl, rfl, rfl, rfl⟩

theorem filter_eq_nil_of_any_eq_false {invoices : List Invoice} {sid : ℕ}
    (h : invoices.any (fun inv => inv.shift == sid) = false) :
    invoices.filter (fun inv => inv.shift == sid) = [] := by
  rw [List.filter_eq_nil_iff]
  intro a ha
  have := List.any_eq_false.mp h a ha
  simpa using this

theorem atMostOne_append_new {invoices : List Invoice} {inv : Invoice}
    (h1 : atMostOneInvoicePerShift invoices)
    (h2 : invoices.any (fun i => i.shift == inv.shift) = false) :
    atMostOneInvoicePerShift (invoices ++ [inv]) := by
  intro sid
  rw [List.filter_append, List.length_append]
  by_cases hs : inv.shift = sid
  · subst hs
    rw [filter_eq_nil_of_any_eq_false h2]
    simp
  · have hnil : ([inv].filter (fun i => i.shift == sid)) = [] := by
      simp [hs]
    rw [hnil]
    simpa using h1 sid

/-- C3: at most one invoice per shift. The on-demand generation route fails
with 400 "Invoice already exists" and writes nothing whenever an invoice for
the shift is already present; when it succeeds it preserves the
one-invoice-per-shift invariant, as does every pass of the auto-completion
sweep over a shift (both creation paths test for an existing invoice before
creating one). -/
theorem c3_invoice_uniqueness :
    (∀ (shift : Shift) (invoices : List Invoice),
      invoices.any (fun inv => inv.shift == shift.id) = true →
      generateInvoice shift invoices = Except.error (400, "Invoice already exists")) ∧
    (∀ (shift : Shift) (invoices invoices2 : List Invoice),
      atMostOneInvoicePerShift invoices →
      generateInvoice shift invoices = Except.ok invoices2 →
      atMostOneInvoicePerShift invoices2) ∧
    (∀ (nowMs : ℤ) (shift : Shift) (invoices : List Invoice),
      atMostOneInvoicePerShift invoices →
      atMostOneInvoicePerShift (autoCompleteStep nowMs shift invoices).2) := by
  refine ⟨?_, ?_, ?_⟩
  · intro shift invoices h
    unfold generateInvoice
    rw [if_pos h]
  · intro shift invoices invoices2 h1 hok
    unfold generateInvoice at hok
    split at hok
    · exact absurd hok (by simp)
    next hany =>
      have hany2 : invoices.any (fun inv => inv.shift == shift.id) = false := by
        simpa using hany
      injection hok with hok
      subst hok
      exact atMostOne_append_new h1 hany2
  · intro nowMs shift invoices h1
    unfold autoCompleteStep
    split
    · exact h1
    split
    · exact h1
    split
    · exact h1
    next hany =>
      have hany2 : invoices.any (fun inv => inv.shift == shift.id) = false := by
        simpa using hany
      show atMostOneInvoicePerShift
        (if 0 < shift.acceptedBy.length then invoices ++ [sweepInvoice nowMs shift] else invoices)
      split
      · exact atMostOne_append_new h1 hany2
      · exact h1

/-- Fixture for C3: the single-invoice collection produced by generating an
invoice for `baseShift` over an empty collection. -/
def c3gen : List Invoice :=
  [] ++ [{
    cafe := baseShift.cafe
    shift := baseShift.id
    shiftDetailsHours := getHoursFromShift baseShift.startTime baseShift.endTime
    shiftDetailsEmployees := baseShift.acceptedBy.length
    baseAmount := baseShift.baseHourlyRate *
      getHoursFromShift baseShift.startTime baseShift.endTime * (baseShift.acceptedBy.length : ℚ)
    platformFee := baseShift.platformFee
    penaltyAmount := jsOrDefault baseShift.penaltyAmount 0
    totalAmount := baseShift.totalCost + jsOrDefault baseShift.penaltyAmount 0
    status := InvoiceStatus.pending
    paidAtMs := none }]

theorem c3_invoice_uniqueness_witness :
    generateInvoice baseShift [c2invoice] = Except.error (400, "Invoice already exists") ∧
    atMostOneInvoicePerShift c3gen ∧
    atMostOneInvoicePerShift (autoCompleteStep nowC2 c2shift []).2 :=
  ⟨c3_invoice_uniqueness.1 baseShift [c2invoice] rfl,
   c3_invoice_uniqueness.2.1 baseShift [] c3gen (fun sid => by simp) rfl,
   c3_invoice_uniqueness.2.2 nowC2 c2shift [] (fun sid => by simp)⟩

/-- C10: when the café-initiated cancellation is permitted (owner matches
and more than 24 truncated hours remain before the start), the handler
returns the shift with only the status replaced by `cancelled`: acceptedBy,
blockedEmployees, rates, cost and both penalty field pairs are untouched,
and in particular no café-side penalty is recorded. -/
theorem c10_cafe_cancel_frame (shift : Shift) (cafeId : ℕ) (nowMs : ℤ)
    (hown : shift.cafe = cafeId)
    (hwin : 24 < differenceInHours (shiftStartMs shift) nowMs) :
    cafeCancelShift shift cafeId nowMs =
      Except.ok { shift with status := ShiftStatus.cancelled } := by
  unfold cafeCancelShift
  rw [if_neg (by simp [hown])]
  exact if_neg (not_le.mpr hwin)

theorem c10_cafe_cancel_frame_witness :
    baseShift.cafe = 7 ∧
    24 < differenceInHours (shiftStartMs baseShift) (-61200000) ∧
    cafeCancelShift baseShift 7 (-61200000) =
      Except.ok { baseShift with status := ShiftStatus.cancelled } :=
  ⟨rfl, by decide, c10_cafe_cancel_frame baseShift 7 (-61200000) rfl (by decide)⟩

/-- C8: `calculateShiftCost` on start 09:00, end 17:00, rate 16, fee 10%,
two employees returns base 256.00, fee 25.60, total 281.60; and whenever
the end minutes exceed the start minutes it returns the rounded
`hours * rate * n`, the rounded fee percentage of the exact base, and the
rounding of the exact base plus the exact fee. -/
theorem c8_calculateShiftCost :
    calculateShiftCost ⟨9, 0⟩ ⟨17, 0⟩ 16 10 2 =
      { baseAmount := 256, platformFee := 25.6, totalCost := 281.6 } ∧
    ∀ (s e : TimeOfDay) (rate fee : ℚ) (n : ℕ),
      minutesOfDay s < minutesOfDay e →
      calculateShiftCost s e rate fee n =
        { baseAmount := round2 (((minutesOfDay e - minutesOfDay s : ℤ) : ℚ) / 60 * rate * (n : ℚ))
          platformFee := round2 (((minutesOfDay e - minutesOfDay s : ℤ) : ℚ) / 60 * rate * (n : ℚ) * fee / 100)
          totalCost := round2 (((minutesOfDay e - minutesOfDay s : ℤ) : ℚ) / 60 * rate * (n : ℚ) +
            ((minutesOfDay e - minutesOfDay s : ℤ) : ℚ) / 60 * rate * (n : ℚ) * fee / 100) } := by
  constructor
  · simp only [calculateShiftCost, minutesOfDay, round2, jsRound, ShiftCost.mk.injEq]
    norm_num
  · intro s e rate fee n _
    rfl

theorem c8_calculateShiftCost_witness :
    minutesOfDay ⟨9, 0⟩ < minutesOfDay ⟨17, 0⟩ ∧
    calculateShiftCost ⟨9, 0⟩ ⟨17, 0⟩ 16 10 2 =
      { baseAmount := round2 (((minutesOfDay ⟨17, 0⟩ - minutesOfDay ⟨9, 0⟩ : ℤ) : ℚ) / 60 * 16 * (2 : ℚ))
        platformFee := round2 (((minutesOfDay ⟨17, 0⟩ - minutesOfDay ⟨9, 0⟩ : ℤ) : ℚ) / 60 * 16 * (2 : ℚ) * 10 / 100)
        totalCost := round2 (((minutesOfDay ⟨17, 0⟩ - minutesOfDay ⟨9, 0⟩ : ℤ) : ℚ) / 60 * 16 * (2 : ℚ) +
          ((minutesOfDay ⟨17, 0⟩ - minutesOfDay ⟨9, 0⟩ : ℤ) : ℚ) / 60 * 16 * (2 : ℚ) * 10 / 100) } :=
  ⟨by decide, c8_calculateShiftCost.2 ⟨9, 0⟩ ⟨17, 0⟩ 16 10 2 (by decide)⟩

/-- C1 (amended): the direct first-come-first-serve accept always leaves
`acceptedBy.length ≤ requiredEmployees` on success; the café acceptance of a
formal application guards fullness by the count of accepted `Application`
documents, so it preserves the bound on `acceptedBy` exactly under the
additional premise that `acceptedBy` is covered by accepted applications
(`acceptedBy.length ≤ countAcceptedApplications`), which fails once the two
front doors are mixed (see the counterexample). -/
theorem c1_acceptedBy_bound :
    (∀ (shift : Shift) (userId : ℕ) (db : List Shift) (s2 : Shift),
      acceptShift shift userId db = Except.ok s2 →
      s2.acceptedBy.length ≤ s2.requiredEmployees) ∧
    (∀ (shift : Shift) (apps : List Application) (app_ : Application)
        (s2 : Shift) (apps2 : List Application),
      shift.acceptedBy.length ≤ countAcceptedApplications apps shift.id →
      acceptApplication shift apps app_ = Except.ok (s2, apps2) →
      s2.acceptedBy.length ≤ s2.requiredEmployees) := by
  constructor
  · intro shift userId db s2 h
    unfold acceptShift at h
    split_ifs at h with h1 h2 h3 h4
    · simp only [Except.ok.injEq] at h
      subst h
      simp only [List.length_append, List.length_cons, List.length_nil]
      omega
  · intro shift apps app_ s2 apps2 hcov h
    unfold acceptApplication at h
    split_ifs at h with h1 h2
    · simp only [Except.ok.injEq] at h
      have hfst : s2 = (acceptApplicationBody shift apps app_).1 := by
        rw [h]
      have hlen : (acceptApplicationBody shift apps app_).1.acceptedBy.length ≤
          (pushAccepted shift app_.employee).acceptedBy.length := by
        unfold acceptApplicationBody
        dsimp only
        split
        · exact le_refl _
        · exact le_refl _
      have hreq : (acceptApplicationBody shift apps app_).1.requiredEmployees =
          (pushAccepted shift app_.employee).requiredEmployees := by
        unfold acceptApplicationBody
        dsimp only
        split
        · rfl
        · rfl
      have hplen : (pushAccepted shift app_.employee).acceptedBy.length ≤
          shift.acceptedBy.length + 1 := by
        unfold pushAccepted
        split
        · exact Nat.le_succ _
        · simp
      have hpreq : (pushAccepted shift app_.employee).requiredEmployees =
          shift.requiredEmployees := by
        unfold pushAccepted
        split
        · rfl
        · rfl
      rw [hfst]
      omega

/-- Fixture for the C1 witness: the state of `baseShift` after employee 5
claims its single slot through direct accept. -/
def c1wA : Shift := { baseShift with acceptedBy := [5], status := ShiftStatus.accepted }

/-- Fixture for the C1 witness: the state of `baseShift` after employee 2's
application is accepted. -/
def c1wB : Shift := { baseShift with acceptedBy := [2], status := ShiftStatus.accepted }

/-- Fixture for the C1 witness: the application list after acceptance. -/
def c1wApps : List Application := [{ c1app with status := ApplicationStatus.accepted }]

theorem c1_acceptedBy_bound_witness :
    c1wA.acceptedBy.length ≤ c1wA.requiredEmployees ∧
    c1wB.acceptedBy.length ≤ c1wB.requiredEmployees :=
  ⟨c1_acceptedBy_bound.1 baseShift 5 [] c1wA rfl,
   c1_acceptedBy_bound.2 baseShift [c1app] c1app c1wB c1wApps (by decide) rfl⟩

/-- C4 (amended): a direct first-come-first-serve claim succeeds exactly
when the shift status is `open`, `acceptedBy` is below `requiredEmployees`,
the claimant is not already in `acceptedBy`, and no overlapping accepted
shift exists for the claimant — the blocked-list is never consulted (see
the counterexample); a claim on an open but full shift fails with "Shift is
already full"; on success the claimant is appended to `acceptedBy` and the
status flips to `accepted` exactly when the list reaches
`requiredEmployees`. -/
theorem c4_accept_conditions (shift : Shift) (userId : ℕ) (db : List Shift) :
    (isSuccess (acceptShift shift userId db) = true ↔
      (shift.status = ShiftStatus.open_ ∧
       shift.acceptedBy.length < shift.requiredEmployees ∧
       shift.acceptedBy.contains userId = false ∧
       hasConflictingShift db shift userId = false)) ∧
    (shift.status = ShiftStatus.open_ →
      shift.requiredEmployees ≤ shift.acceptedBy.length →
      acceptShift shift userId db = Except.error (400, "Shift is already full")) ∧
    (∀ s2 : Shift, acceptShift shift userId db = Except.ok s2 →
      s2.acceptedBy = shift.acceptedBy ++ [userId] ∧
      (s2.status = ShiftStatus.accepted ↔
        shift.requiredEmployees = shift.acceptedBy.length + 1)) := by
  refine ⟨?_, ?_, ?_⟩
  · unfold acceptShift
    split_ifs with h1 h2 h3 h4
    · exact iff_of_false (by simp [isSuccess]) (fun hc => h1 hc.1)
    · exact iff_of_false (by simp [isSuccess]) (fun hc => absurd hc.2.1 (not_lt.mpr h2))
    · exact iff_of_false (by simp [isSuccess])
        (fun hc => by rw [hc.2.2.1] at h3; exact Bool.noConfusion h3)
    · exact iff_of_false (by simp [isSuccess])
        (fun hc => by rw [hc.2.2.2] at h4; exact Bool.noConfusion h4)
    · exact iff_of_true (by simp [isSuccess])
        ⟨not_not.mp h1, not_le.mp h2, by simpa using h3, by simpa using h4⟩
  · intro hst hfull
    unfold acceptShift
    rw [if_neg (by simp [hst]), if_pos hfull]
  · intro s2 h
    unfold acceptShift at h
    split_ifs at h with h1 h2 h3 h4
    simp only [Except.ok.injEq] at h
    subst h
    refine ⟨rfl, ?_⟩
    dsimp only
    split
    next h5 =>
      simp only [List.length_append, List.length_cons, List.length_nil] at h5
      exact iff_of_true rfl (by omega)
    next h5 =>
      simp only [List.length_append, List.length_cons, List.length_nil] at h5
      rw [not_not.mp h1]
      exact iff_of_false (by simp) (by omega)

theorem c4_accept_conditions_witness :
    (isSuccess (acceptShift baseShift 5 []) = true ↔
      (baseShift.status = ShiftStatus.open_ ∧
       baseShift.acceptedBy.length < baseShift.requiredEmployees ∧
       baseShift.acceptedBy.contains 5 = false ∧
       hasConflictingShift [] baseShift 5 = false)) ∧
    acceptShift c1shift 8 [] = Except.error (400, "Shift is already full") ∧
    (c1wA.acceptedBy = baseShift.acceptedBy ++ [5] ∧
      (c1wA.status = ShiftStatus.accepted ↔
        baseShift.requiredEmployees = baseShift.acceptedBy.length + 1)) :=
  ⟨(c4_accept_conditions baseShift 5 []).1,
   (c4_accept_conditions c1shift 8 []).2.1 rfl (by decide),
   (c4_accept_conditions baseShift 5 []).2.2 c1wA rfl⟩

/-- C2 (amended): one sweep run over an ended `accepted` shift leaves it
`completed` if and only if no invoice for it existed at the start of the
run — a shift with a pre-existing invoice is skipped entirely and stays
`accepted` (see the counterexample); when no invoice exists, exactly one
invoice is created iff the shift has at least one accepted employee, with
status `paid`, a paid-at timestamp, `baseAmount = (rate, or 14 when the
stored rate is 0) * hours * acceptedCount` and `totalAmount = stored
totalCost + stored penalty` (see `sweepInvoice`); with no accepted employee
the shift completes without billing. -/
theorem c2_sweep_behavior (nowMs : ℤ) (shift : Shift) (invoices : List Invoice)
    (hst : shift.status = ShiftStatus.accepted)
    (hend : isShiftEnded shift nowMs = true) :
    (invoices.any (fun inv => inv.shift == shift.id) = true →
      runAutoCompleteShifts nowMs [shift] invoices = ([shift], invoices)) ∧
    (invoices.any (fun inv => inv.shift == shift.id) = false →
      (runAutoCompleteShifts nowMs [shift] invoices).1 =
        [{ shift with status := ShiftStatus.completed }] ∧
      (shift.acceptedBy.length = 0 →
        (runAutoCompleteShifts nowMs [shift] invoices).2 = invoices) ∧
      (0 < shift.acceptedBy.length →
        (runAutoCompleteShifts nowMs [shift] invoices).2 =
          invoices ++ [sweepInvoice nowMs shift]) ∧
      (sweepInvoice nowMs shift).status = InvoiceStatus.paid ∧
      (sweepInvoice nowMs shift).paidAtMs = some nowMs) := by
  have hrun : runAutoCompleteShifts nowMs [shift] invoices =
      ((autoCompleteStep nowMs shift invoices).1 :: [],
        (autoCompleteStep nowMs shift invoices).2) := rfl
  constructor
  · intro hany
    rw [hrun]
    unfold autoCompleteStep
    rw [if_neg (by simp [hst]), if_neg (by simp [hend]), if_pos hany]
  · intro hany
    have hstep : autoCompleteStep nowMs shift invoices =
        ({ shift with status := ShiftStatus.completed },
          if 0 < shift.acceptedBy.length then invoices ++ [sweepInvoice nowMs shift]
          else invoices) := by
      unfold autoCompleteStep
      rw [if_neg (by simp [hst]), if_neg (by simp [hend]),
        if_neg (by simp [hany])]
    refine ⟨by rw [hrun, hstep], ?_, ?_, rfl, rfl⟩
    · intro hzero
      rw [hrun, hstep]
      simp only [hzero]
      rfl
    · intro hpos
      rw [hrun, hstep]
      simp only [if_pos hpos]

theorem c2_sweep_behavior_witness :
    runAutoCompleteShifts nowC2 [c2shift] [c2invoice] = ([c2shift], [c2invoice]) ∧
    (runAutoCompleteShifts nowC2 [c2shift] []).1 =
      [{ c2shift with status := ShiftStatus.completed }] ∧
    (runAutoCompleteShifts nowC2 [c2shift] []).2 = [] ++ [sweepInvoice nowC2 c2shift] :=
  have h1 := c2_sweep_behavior nowC2 c2shift [c2invoice] rfl rfl
  have h2 := c2_sweep_behavior nowC2 c2shift [] rfl rfl
  ⟨h1.1 rfl, (h2.2 rfl).1, (h2.2 rfl).2.2.1 (by decide)⟩

theorem applyEmployeePenalty_acceptedBy (shift : Shift) (nowMs : ℤ) (pct : ℚ) :
    (applyEmployeePenalty shift nowMs pct).acceptedBy = shift.acceptedBy := by
  simp only [applyEmployeePenalty]
  split
  · rfl
  · rfl

theorem applyEmployeePenalty_status (shift : Shift) (nowMs : ℤ) (pct : ℚ) :
    (applyEmployeePenalty shift nowMs pct).status = shift.status := by
  simp only [applyEmployeePenalty]
  split
  · rfl
  · rfl

theorem applyEmployeePenalty_required (shift : Shift) (nowMs : ℤ) (pct : ℚ) :
    (applyEmployeePenalty shift nowMs pct).requiredEmployees = shift.requiredEmployees := by
  simp only [applyEmployeePenalty]
  split
  · rfl
  · rfl

theorem applyEmployeePenalty_applied (shift : Shift) (nowMs : ℤ) (pct : ℚ)
    (hpen0 : shift.employeePenaltyApplied = false) :
    ((applyEmployeePenalty shift nowMs pct).employeePenaltyApplied = true ↔
      (1 ≤ differenceInHours (shiftStartMs shift) nowMs ∧
       differenceInHours (shiftStartMs shift) nowMs ≤ 24 ∧
       24 ≤ differenceInHours nowMs shift.createdAtMs)) ∧
    ((applyEmployeePenalty shift nowMs pct).employeePenaltyApplied = true →
      (applyEmployeePenalty shift nowMs pct).employeePenaltyAmount =
        calculatePenalty
          (getHoursFromShift shift.startTime shift.endTime *
            shift.employeeHourlyRate.getD shift.baseHourlyRate) pct) := by
  simp only [applyEmployeePenalty]
  split
  next hp => exact ⟨iff_of_true rfl (by omega), fun _ => rfl⟩
  next hp =>
    refine ⟨iff_of_false (by simp [hpen0]) ?_, fun habs => absurd habs (by simp [hpen0])⟩
    rintro ⟨r1, r2, r3⟩
    exact hp ⟨by omega, by omega, by omega⟩

theorem reopenIfBelow_fields (shift : Shift) :
    (reopenIfBelow shift).acceptedBy = shift.acceptedBy ∧
    (reopenIfBelow shift).employeePenaltyApplied = shift.employeePenaltyApplied ∧
    (reopenIfBelow shift).employeePenaltyAmount = shift.employeePenaltyAmount := by
  unfold reopenIfBelow
  split
  · exact ⟨rfl, rfl, rfl⟩
  split
  · exact ⟨rfl, rfl, rfl⟩
  · exact ⟨rfl, rfl, rfl⟩

theorem reopenIfBelow_opens (shift : Shift)
    (h : shift.acceptedBy.length = 0 ∨
      (shift.status = ShiftStatus.accepted ∧
        shift.acceptedBy.length < shift.requiredEmployees)) :
    (reopenIfBelow shift).status = ShiftStatus.open_ := by
  unfold reopenIfBelow
  split
  · rfl
  next hz =>
    split
    · rfl
    next ha =>
      rcases h with h0 | hacc
      · exact absurd h0 hz
      · exact absurd hacc ha

/-- C6 (amended): an individual withdrawal by an accepted employee always
succeeds, removes them from `acceptedBy` (first occurrence), records the
employee penalty `round2(expectedEarnings * pct / 100)` — expected earnings
being shift hours times the admin-set employee rate when present, otherwise
the base rate — if and only if the truncated whole-hour lead before the
start is between 1 and 24 inclusive (so a withdrawal less than one hour
before start records no penalty) and the shift was created at least 24
truncated hours earlier; the shift reopens to `open` when it becomes empty
or when an `accepted` shift drops below `requiredEmployees`. -/
theorem c6_withdrawal_behavior (shift : Shift) (userId : ℕ) (nowMs : ℤ) (pct : ℚ)
    (hmem : shift.acceptedBy.contains userId = true)
    (hpen0 : shift.employeePenaltyApplied = false) :
    isSuccess (employeeCancelShift shift userId nowMs pct) = true ∧
    ∀ out : Shift, employeeCancelShift shift userId nowMs pct = Except.ok out →
      out.acceptedBy = shift.acceptedBy.erase userId ∧
      (out.employeePenaltyApplied = true ↔
        (1 ≤ differenceInHours (shiftStartMs shift) nowMs ∧
         differenceInHours (shiftStartMs shift) nowMs ≤ 24 ∧
         24 ≤ differenceInHours nowMs shift.createdAtMs)) ∧
      (out.employeePenaltyApplied = true →
        out.employeePenaltyAmount =
          calculatePenalty
            (getHoursFromShift shift.startTime shift.endTime *
              shift.employeeHourlyRate.getD shift.baseHourlyRate) pct) ∧
      ((out.acceptedBy.length = 0 ∨
        (shift.status = ShiftStatus.accepted ∧
          out.acceptedBy.length < shift.requiredEmployees)) →
        out.status = ShiftStatus.open_) := by
  have hguard : ¬ ¬ shift.acceptedBy.contains userId = true := fun hn => hn hmem
  constructor
  · unfold employeeCancelShift
    rw [if_neg hguard]
    rfl
  · intro out hout
    unfold employeeCancelShift at hout
    rw [if_neg hguard] at hout
    simp only [Except.ok.injEq] at hout
    subst hout
    set shift3 : Shift :=
      { applyEmployeePenalty shift nowMs pct with
          acceptedBy := (applyEmployeePenalty shift nowMs pct).acceptedBy.erase userId }
      with hshift3
    have hfields := reopenIfBelow_fields shift3
    have hpen := applyEmployeePenalty_applied shift nowMs pct hpen0
    refine ⟨?_, ?_, ?_, ?_⟩
    · rw [hfields.1, hshift3]
      rw [applyEmployeePenalty_acceptedBy]
    · rw [hfields.2.1, hshift3]
      exact hpen.1
    · rw [hfields.2.1, hfields.2.2, hshift3]
      exact hpen.2
    · intro hcond
      apply reopenIfBelow_opens
      have hstat : shift3.status = shift.status := by
        rw [hshift3]
        exact applyEmployeePenalty_status shift nowMs pct
      rcases hcond with h0 | ⟨hacc, hlt⟩
      · left
        rw [← hfields.1]
        exact h0
      · right
        refine ⟨by rw [hstat, hacc], ?_⟩
        have hreq : shift3.requiredEmployees = shift.requiredEmployees := by
          rw [hshift3]
          exact applyEmployeePenalty_required shift nowMs pct
        rw [hreq, ← hfields.1]
        exact hlt

/-- Fixture for the C6 witness: a staffed shift starting 5 truncated hours
after `nowC6`, created 48 hours earlier, so the penalty branch fires. -/
def c6wShift : Shift :=
  { baseShift with
      date := 2
      startTime := ⟨5, 0⟩
      endTime := ⟨13, 0⟩
      status := ShiftStatus.accepted
      acceptedBy := [3] }

/-- Fixture for the C6 witness: the expected state after the withdrawal. -/
def c6wOut : Shift :=
  { c6wShift with
      acceptedBy := []
      status := ShiftStatus.open_
      employeePenaltyApplied := true
      employeePenaltyAmount :=
        calculatePenalty
          (getHoursFromShift c6wShift.startTime c6wShift.endTime *
            c6wShift.employeeHourlyRate.getD c6wShift.baseHourlyRate) 50 }

theorem c6_withdrawal_behavior_witness :
    isSuccess (employeeCancelShift c6wShift 3 nowC6 50) = true ∧
    c6wOut.acceptedBy = c6wShift.acceptedBy.erase 3 ∧
    c6wOut.employeePenaltyApplied = true :=
  have h := c6_withdrawal_behavior c6wShift 3 nowC6 50 rfl rfl
  ⟨h.1, (h.2 c6wOut rfl).1, (h.2 c6wOut rfl).2.1.mpr (by decide)⟩

/-- C7: shift creation is rejected when the start is less than the
configured minimum lead time (default 3 hours) from now; otherwise the tier
floor is selected by hours-from-now (less than 12 hours gives the 3-to-12
tier, 12 to under 24 the 12-to-24 tier, 24 or more the 24-plus tier; with
the default configuration these floors are 17 over 16 over 14, so the
less-notice tiers are strictly higher); a supplied rate below the floor is
rejected, and with no supplied rate the floor itself is assigned as the
base hourly rate. -/
theorem c7_creation_rate_policy (cfg : PlatformCfg) (nowMs startMs : ℤ)
    (clientRate : Option ℚ) :
    (hoursFromNowQ nowMs startMs < cfg.minimumHoursBeforeShift →
      createShiftRate cfg nowMs startMs clientRate =
        Except.error (400, "Shift must start at least the minimum hours from now")) ∧
    (cfg.minimumHoursBeforeShift ≤ hoursFromNowQ nowMs startMs →
      (hoursFromNowQ nowMs startMs < 12 →
        tierBasePrice cfg (hoursFromNowQ nowMs startMs) = cfg.basePriceTier3to12) ∧
      (12 ≤ hoursFromNowQ nowMs startMs → hoursFromNowQ nowMs startMs < 24 →
        tierBasePrice cfg (hoursFromNowQ nowMs startMs) = cfg.basePriceTier12to24) ∧
      (24 ≤ hoursFromNowQ nowMs startMs →
        tierBasePrice cfg (hoursFromNowQ nowMs startMs) = cfg.basePriceTier24Plus) ∧
      (clientRate = none →
        createShiftRate cfg nowMs startMs clientRate =
          Except.ok (tierBasePrice cfg (hoursFromNowQ nowMs startMs))) ∧
      (∀ r : ℚ, clientRate = some r →
        r < tierBasePrice cfg (hoursFromNowQ nowMs startMs) →
        createShiftRate cfg nowMs startMs clientRate =
          Except.error
            (400, "Price per hour cannot be less than the minimum for this posting time")) ∧
      (∀ r : ℚ, clientRate = some r →
        tierBasePrice cfg (hoursFromNowQ nowMs startMs) ≤ r →
        createShiftRate cfg nowMs startMs clientRate = Except.ok r)) ∧
    (({} : PlatformCfg).basePriceTier24Plus < ({} : PlatformCfg).basePriceTier12to24 ∧
     ({} : PlatformCfg).basePriceTier12to24 < ({} : PlatformCfg).basePriceTier3to12) := by
  refine ⟨?_, ?_, by norm_num, by norm_num⟩
  · intro hlt
    simp only [createShiftRate]
    rw [if_pos hlt]
  · intro hmin
    refine ⟨?_, ?_, ?_, ?_, ?_, ?_⟩
    · intro h12
      unfold tierBasePrice
      rw [if_neg (by linarith), if_neg (by linarith)]
    · intro h12 h24
      unfold tierBasePrice
      rw [if_neg (by linarith), if_pos h12]
    · intro h24
      unfold tierBasePrice
      rw [if_pos h24]
    · intro hnone
      subst hnone
      simp only [createShiftRate, Option.getD]
      rw [if_neg (not_lt.mpr hmin), if_neg (lt_irrefl _)]
    · intro r hsome hlow
      subst hsome
      simp only [createShiftRate, Option.getD]
      rw [if_neg (not_lt.mpr hmin), if_pos hlow]
    · intro r hsome hge
      subst hsome
      simp only [createShiftRate, Option.getD]
      rw [if_neg (not_lt.mpr hmin), if_neg (not_lt.mpr hge)]

theorem c7_creation_rate_policy_witness :
    createShiftRate {} 0 7200000 none =
      Except.error (400, "Shift must start at least the minimum hours from now") ∧
    tierBasePrice {} (hoursFromNowQ 0 108000000) = ({} : PlatformCfg).basePriceTier24Plus ∧
    createShiftRate {} 0 108000000 none =
      Except.ok (tierBasePrice {} (hoursFromNowQ 0 108000000)) ∧
    createShiftRate {} 0 36000000 (some 10) =
      Except.error
        (400, "Price per hour cannot be less than the minimum for this posting time") ∧
    createShiftRate {} 0 36000000 (some 20) = Except.ok 20 :=
  have h2 := c7_creation_rate_policy {} 0 7200000 none
  have h30 := c7_creation_rate_policy {} 0 108000000 none
  have h10low := c7_creation_rate_policy {} 0 36000000 (some 10)
  have h10hi := c7_creation_rate_policy {} 0 36000000 (some 20)
  have e2 : hoursFromNowQ 0 7200000 = 2 := by norm_num [hoursFromNowQ]
  have e30 : hoursFromNowQ 0 108000000 = 30 := by norm_num [hoursFromNowQ]
  have e10 : hoursFromNowQ 0 36000000 = 10 := by norm_num [hoursFromNowQ]
  have t10 : tierBasePrice {} (hoursFromNowQ 0 36000000) = 17 := by
    rw [e10]
    unfold tierBasePrice
    rw [if_neg (by norm_num), if_neg (by norm_num)]
  ⟨h2.1 (by rw [e2]; norm_num),
   (h30.2.1 (by rw [e30]; norm_num)).2.2.1 (by rw [e30]; norm_num),
   (h30.2.1 (by rw [e30]; norm_num)).2.2.2.1 rfl,
   (h10low.2.1 (by rw [e10]; norm_num)).2.2.2.2.1 10 rfl (by rw [t10]; norm_num),
   (h10hi.2.1 (by rw [e10]; norm_num)).2.2.2.2.2 20 rfl (by rw [t10]; norm_num)⟩

end VeWork
